import Mathlib

/-!
Shallow embedding of the false-note-detection pipeline:
the Sequence Aligner (src/app/services/aligner.py), the Reference Timeline
Builder (src/app/services/midi_processor.py), the Deviation Detector
(src/app/services/error_detector.py), the Scorer (src/app/services/scoring.py)
and the metric computations of the upload route (src/app/routes/upload.py).
Frequencies are modelled as real numbers, frame indices as naturals, and
Python exceptions as the error constructor of Except.
-/

set_option maxHeartbeats 1000000

open scoped Classical

namespace FalseNote

/-- MAX_DTW_LENGTH from src/app/config.py (default value, no env override). -/
def MAX_DTW_LENGTH : ℕ := 60000

/-- One conditional write of the loop in align_and_warp (aligner.py lines 94-98):
position p.1 of the accumulator receives seq[p.2] only when p.2 is in range. -/
def writeStep (seq : List ℝ) (acc : List ℝ) (p : ℕ × ℕ) : List ℝ :=
  if p.2 < seq.length then acc.set p.1 (seq.getD p.2 0) else acc

/-- The aligned-output construction of align_and_warp (aligner.py lines 90-98)
for one side: start from a zero array of the path length and conditionally
write seq[idx] at each enumerated path position. -/
def fillAligned (seq : List ℝ) (idxs : List ℕ) : List ℝ :=
  idxs.enum.foldl (writeStep seq) (List.replicate idxs.length 0)

/-- Both aligned outputs built from a DTW path (aligner.py lines 89-100). -/
def alignedFromPath (path : List (ℕ × ℕ)) (seq1 seq2 : List ℝ) :
    List ℝ × List ℝ :=
  (fillAligned seq1 (path.map Prod.fst), fillAligned seq2 (path.map Prod.snd))

/-- align_and_warp from src/app/services/aligner.py.  The fastdtw call is an
external collaborator, passed in as an oracle that either returns a
(distance, path) pair or raises. -/
def align_and_warp (dtw : List ℝ → List ℝ → Except String (ℝ × List (ℕ × ℕ)))
    (seq1 seq2 : List ℝ) : Except String (List ℝ × List ℝ) :=
  if seq1.length = 0 ∨ seq2.length = 0 then
    Except.error "Cannot align empty sequences"
  else
    if ((max seq1.length seq2.length : ℕ) : ℚ) /
        ((min seq1.length seq2.length : ℕ) : ℚ) < 11 / 10 then
      let min_len := min seq1.length seq2.length
      Except.ok (seq1.take min_len, seq2.take min_len)
    else if MAX_DTW_LENGTH < seq1.length ∨ MAX_DTW_LENGTH < seq2.length then
      let min_len := min (min seq1.length seq2.length) MAX_DTW_LENGTH
      Except.ok (seq1.take min_len, seq2.take min_len)
    else
      match dtw seq1 seq2 with
      | Except.error _ =>
        let min_len := min seq1.length seq2.length
        Except.ok (seq1.take min_len, seq2.take min_len)
      | Except.ok (_, path) => Except.ok (alignedFromPath path seq1 seq2)

/-- Python int() applied to an exact rational: truncation toward zero. -/
def pyInt (q : ℚ) : ℤ :=
  if 0 ≤ q then ⌊q⌋ else -⌊-q⌋

/-- A MIDI note event as delivered by the pretty_midi collaborator
(midi_processor.py reads note.pitch, note.start, note.end; the field endT
stands for the source attribute named end, a Lean keyword). -/
structure Note where
  pitch : ℤ
  start : ℚ
  endT : ℚ

/-- pretty_midi.note_number_to_hz: equal-temperament conversion
440 * 2^((pitch - 69) / 12). -/
noncomputable def noteFreq (pitch : ℤ) : ℝ :=
  440 * (2 : ℝ) ^ (((pitch : ℝ) - 69) / 12)

/-- Timeline length of parse_midi (midi_processor.py line 45):
int(total_duration * target_sr) + 1. -/
def numFrames (total_duration target_sr : ℚ) : ℕ :=
  (pyInt (total_duration * target_sr)).toNat + 1

/-- Python list indexing with a possibly negative index
(midi.instruments[instrument_index]); negative indices count from the end. -/
def pyGetTrack (l : List (List Note)) (i : ℤ) : List Note :=
  if 0 ≤ i then l.getD i.toNat [] else l.getD (l.length - (-i).toNat) []

/-- Instrument selection of parse_midi (midi_processor.py lines 49-58):
index -1 or the merge flag selects all instruments; otherwise a single
instrument, falling back to track 0 when the index is out of range. -/
def selectInstruments (instruments : List (List Note)) (instrument_index : ℤ)
    (merge_instruments : Bool) : List (List Note) :=
  if instrument_index = -1 ∨ merge_instruments then instruments
  else
    let idx : ℤ :=
      if (instruments.length : ℤ) ≤ instrument_index then 0 else instrument_index
    [pyGetTrack instruments idx]

/-- Note nt sounds at frame f of a timeline with num_frames frames:
the write condition of the note loop in parse_midi (midi_processor.py
lines 67-70): start_idx ≤ f < end_idx with end_idx capped at num_frames,
and only when start_idx < num_frames. -/
def coversFrame (sr : ℚ) (num_frames : ℕ) (f : ℕ) (nt : Note) : Prop :=
  pyInt (nt.start * sr) < (num_frames : ℤ)
    ∧ pyInt (nt.start * sr) ≤ (f : ℤ)
    ∧ (f : ℤ) < min (pyInt (nt.endT * sr)) (num_frames : ℤ)

/-- Effect of one note on the timeline value at frame f
(midi_processor.py lines 67-81): in merge mode the maximum with the
current value is kept, otherwise the note overwrites. -/
noncomputable def applyNote (mergeMode : Bool) (sr : ℚ) (num_frames : ℕ)
    (f : ℕ) (v : ℝ) (nt : Note) : ℝ :=
  if coversFrame sr num_frames f nt then
    (if mergeMode then max v (noteFreq nt.pitch) else noteFreq nt.pitch)
  else v

/-- Value of one timeline frame after the note loop of parse_midi ran over
all selected notes in order, starting from the zero initialization. -/
noncomputable def frameValue (mergeMode : Bool) (sr : ℚ) (num_frames : ℕ)
    (notes : List Note) (f : ℕ) : ℝ :=
  notes.foldl (applyNote mergeMode sr num_frames f) 0

/-- parse_midi from src/app/services/midi_processor.py, with the external
pretty_midi collaborator abstracted into its outputs: the instruments
(each a list of Note events) and midi.get_end_time(). -/
noncomputable def parse_midi (instruments : List (List Note))
    (total_duration : ℚ) (target_sr : ℚ) (instrument_index : ℤ)
    (merge_instruments : Bool) : List ℝ :=
  if instruments.length = 0 then []
  else
    let nf := numFrames total_duration target_sr
    let toProcess := selectInstruments instruments instrument_index merge_instruments
    let mergeMode := merge_instruments && decide (1 < toProcess.length)
    (List.range nf).map (frameValue mergeMode target_sr nf toProcess.flatten)

/-- The reference-contour validation of the caller
(src/app/routes/upload.py lines 181-182). -/
def contourCheck (f_ref : List ℝ) : Except String Unit :=
  if f_ref.length = 0 then
    Except.error "MIDI file did not produce pitch data. Check if the file contains notes."
  else Except.ok ()

/-- Specification-side merged value: the maximum note frequency among all
notes sounding at frame f, 0 when none sounds. -/
noncomputable def maxFreqAt (sr : ℚ) (num_frames : ℕ) (notes : List Note)
    (f : ℕ) : ℝ :=
  (notes.filter (fun nt => decide (coversFrame sr num_frames f nt))).foldl
    (fun v nt => max v (noteFreq nt.pitch)) 0

/-- Specification-side overwrite value: the frequency of the last note in
iteration order sounding at frame f, 0 when none sounds. -/
noncomputable def lastWriteAt (sr : ℚ) (num_frames : ℕ) (notes : List Note)
    (f : ℕ) : ℝ :=
  match (notes.filter (fun nt => decide (coversFrame sr num_frames f nt))).getLast? with
  | some nt => noteFreq nt.pitch
  | none => 0

/-- Signed pitch deviation in cents: 1200 * log2(f_audio / f_ref)
(error_detector.py line 51, scoring.py line 27, upload.py line 217). -/
noncomputable def cents (a r : ℝ) : ℝ := 1200 * Real.logb 2 (a / r)

/-- Frame i of the pair is valid (both contours strictly positive there):
the mask of error_detector.py line 43. -/
def voiced (fa fr : List ℝ) (i : ℕ) : Prop :=
  0 < fa.getD i 0 ∧ 0 < fr.getD i 0

/-- The cents-difference array of error_detector.py lines 39-51: zero
everywhere except at valid frames, where it is the signed cents value. -/
noncomputable def centsList (fa fr : List ℝ) : List ℝ :=
  (List.range fa.length).map (fun i =>
    if voiced fa fr i then cents (fa.getD i 0) (fr.getD i 0) else 0)

/-- Insertion step of sorting a window of real samples. -/
noncomputable def insertR (a : ℝ) : List ℝ → List ℝ
  | [] => [a]
  | b :: t => if a ≤ b then a :: b :: t else b :: insertR a t

/-- Sorting a list of real samples (ascending). -/
noncomputable def sortReal : List ℝ → List ℝ
  | [] => []
  | a :: t => insertR a (sortReal t)

/-- numpy median: middle element of the sorted data for odd length, mean of
the two middle elements for even length. -/
noncomputable def npMedian (xs : List ℝ) : ℝ :=
  if xs.length % 2 = 1 then (sortReal xs).getD (xs.length / 2) 0
  else ((sortReal xs).getD (xs.length / 2 - 1) 0
    + (sortReal xs).getD (xs.length / 2) 0) / 2

/-- Zero-padded sample access used by the median filter. -/
def padGet (xs : List ℝ) (z : ℤ) : ℝ :=
  if 0 ≤ z ∧ z < (xs.length : ℤ) then xs.getD z.toNat 0 else 0

/-- scipy.signal.medfilt on a 1-D array: rejects even kernel sizes with a
ValueError, otherwise replaces each sample by the median of the
zero-padded window of the kernel size centred at it. -/
noncomputable def medfilt (xs : List ℝ) (k : ℕ) : Except String (List ℝ) :=
  if k % 2 ≠ 1 then Except.error "Each element of kernel_size should be odd."
  else Except.ok ((List.range xs.length).map (fun i =>
    npMedian ((List.range k).map (fun j =>
      padGet xs ((i : ℤ) + (j : ℤ) - (k / 2 : ℕ))))))

/-- The smoothing stage of detect_errors (error_detector.py lines 55-60):
median-filter the cents array when the window exceeds 1 and the sequence
is longer than the window, then overwrite only the valid-mask positions. -/
noncomputable def smoothed (fa fr : List ℝ) (smooth_window : ℕ) :
    Except String (List ℝ) :=
  let cents0 := centsList fa fr
  if 1 < smooth_window ∧ smooth_window < fa.length then
    match medfilt cents0 smooth_window with
    | Except.error e => Except.error e
    | Except.ok sm =>
      Except.ok ((List.range fa.length).map (fun i =>
        if voiced fa fr i then sm.getD i 0 else cents0.getD i 0))
  else Except.ok cents0

/-- Indices of valid frames, in increasing order (np.where of the mask). -/
noncomputable def validIndices (fa fr : List ℝ) : List ℕ :=
  (List.range fa.length).filter (fun i => decide (voiced fa fr i))

/-- Threshold resolution of detect_errors (error_detector.py lines 68-77):
a positive caller threshold is used verbatim; otherwise the median absolute
smoothed deviation over valid frames plus 10, clamped to [10, 200], with a
fallback of 40 when there are no valid frames. -/
noncomputable def dynThreshold (fa fr : List ℝ) (threshold_cents : ℝ)
    (cents1 : List ℝ) : ℝ :=
  if threshold_cents ≤ 0 then
    let absc := (validIndices fa fr).map (fun i => |cents1.getD i 0|)
    if absc.length ≠ 0 then max 10 (min (npMedian absc + 10) 200) else 40
  else threshold_cents

/-- Raw per-frame error classification of detect_errors (lines 81-87):
a valid frame whose absolute smoothed deviation exceeds the threshold, and,
when silence is not ignored, additionally any voiced/unvoiced mismatch. -/
def rawErrorAt (fa fr : List ℝ) (ignore_silence : Bool) (dyn : ℝ)
    (cents1 : List ℝ) (i : ℕ) : Prop :=
  if ignore_silence then voiced fa fr i ∧ dyn < |cents1.getD i 0|
  else (voiced fa fr i ∧ dyn < |cents1.getD i 0|)
    ∨ Xor' (fa.getD i 0 = 0) (fr.getD i 0 = 0)

/-- Raw error indices (np.where of the raw error mask, line 90). -/
noncomputable def rawErrors (fa fr : List ℝ) (ignore_silence : Bool)
    (dyn : ℝ) (cents1 : List ℝ) : List ℕ :=
  (List.range fa.length).filter (fun i =>
    decide (rawErrorAt fa fr ignore_silence dyn cents1 i))

/-- Run grouping of detect_errors (lines 99-112): consume the sorted index
list, extending the current run (start, prev, count) on consecutive
indices and emitting it otherwise. -/
def runsFrom (start prev count : ℕ) : List ℕ → List (ℕ × ℕ × ℕ)
  | [] => [(start, prev, count)]
  | idx :: rest =>
    if idx = prev + 1 then runsFrom start idx (count + 1) rest
    else (start, prev, count) :: runsFrom idx idx 1 rest

/-- Group a sorted index list into maximal runs (lines 99-112). -/
def groupRuns : List ℕ → List (ℕ × ℕ × ℕ)
  | [] => []
  | x :: rest => runsFrom x x 1 rest

/-- Keep the member indices of runs of at least the minimum length
(detect_errors lines 115-120). -/
def filterRuns (runs : List (ℕ × ℕ × ℕ)) (minLen : ℕ) : List ℕ :=
  runs.foldl (fun acc r =>
    if minLen ≤ r.2.2 then acc ++ List.range' r.1 (r.2.1 + 1 - r.1) else acc) []

/-- The tail of detect_errors (lines 89-120): empty result on no raw
errors, the raw indices when run-length filtering is disabled, and the
run-filtered indices otherwise. -/
def runLengthFilter (raw : List ℕ) (min_error_frames : ℕ) : List ℕ :=
  if raw.length = 0 then []
  else if min_error_frames ≤ 1 then raw
  else filterRuns (groupRuns raw) min_error_frames

/-- detect_errors from src/app/services/error_detector.py.  The scipy
median filter's ValueError on even kernel sizes is the error case. -/
noncomputable def detect_errors (fa fr : List ℝ) (threshold_cents : ℝ)
    (ignore_silence : Bool) (smooth_window min_error_frames : ℕ) :
    Except String (List ℕ) :=
  if ∀ i, i < fa.length → ¬ voiced fa fr i then Except.ok []
  else
    match smoothed fa fr smooth_window with
    | Except.error e => Except.error e
    | Except.ok cents1 =>
      Except.ok (runLengthFilter
        (rawErrors fa fr ignore_silence
          (dynThreshold fa fr threshold_cents cents1) cents1)
        min_error_frames)

/-- compute_score from src/app/services/scoring.py: the pair of
correct_frames and mean_cents (mean absolute raw cents deviation over
valid frames, 0.0 when there are none). -/
noncomputable def compute_score (fa fr : List ℝ) (error_indices : List ℕ)
    (total_frames : ℕ) : ℤ × ℝ :=
  let vals := (validIndices fa fr).map (fun i =>
    |cents (fa.getD i 0) (fr.getD i 0)|)
  ((total_frames : ℤ) - error_indices.length,
    if vals.length ≠ 0 then vals.sum / (vals.length : ℝ) else 0)

/-- The max_cents metric of the upload route (upload.py lines 215-220):
np.max of the absolute cents deviations over valid frames, 0.0 when there
are none. -/
noncomputable def max_cents_metric (fa fr : List ℝ) : ℝ :=
  match (validIndices fa fr).map (fun i =>
    |cents (fa.getD i 0) (fr.getD i 0)|) with
  | [] => 0
  | v :: t => t.foldl max v

/-- The accuracy metric of the upload route (upload.py line 211):
correct_frames / total_frames * 100 when total_frames > 0, else 0.0. -/
noncomputable def accuracyPercent (correct : ℤ) (total_frames : ℕ) : ℝ :=
  if 0 < total_frames then (correct : ℝ) / (total_frames : ℝ) * 100 else 0

theorem fillAligned_shift (seq : List ℝ) (idxs : List ℕ) :
    ∀ (j : ℕ) (a : ℝ) (acc : List ℝ),
    (idxs.enumFrom (j + 1)).foldl (writeStep seq) (a :: acc)
      = a :: (idxs.enumFrom j).foldl (writeStep seq) acc := by
  induction idxs with
  | nil => intro j a acc; rfl
  | cons x xs ih =>
    intro j a acc
    simp only [List.enumFrom, List.foldl_cons]
    have hstep : writeStep seq (a :: acc) (j + 1, x)
        = a :: writeStep seq acc (j, x) := by
      unfold writeStep
      by_cases hx : x < seq.length
      · simp [hx, List.set]
      · simp [hx]
    rw [hstep, ih]

theorem fillAligned_eq_map (seq : List ℝ) (idxs : List ℕ) :
    fillAligned seq idxs
      = idxs.map (fun i => if i < seq.length then seq.getD i 0 else 0) := by
  induction idxs with
  | nil => rfl
  | cons x xs ih =>
    unfold fillAligned
    simp only [List.enum, List.enumFrom, List.length_cons, List.map_cons,
      List.replicate, List.foldl_cons]
    have hstep : writeStep seq (0 :: List.replicate xs.length 0) (0, x)
        = (if x < seq.length then seq.getD x 0 else 0)
            :: List.replicate xs.length 0 := by
      unfold writeStep
      by_cases hx : x < seq.length
      · simp [hx, List.set]
      · simp [hx]
    rw [hstep, fillAligned_shift seq xs 0]
    unfold fillAligned at ih
    simp only [List.enum] at ih
    rw [ih]

theorem getD_map_lt {α β : Type} (l : List α) (f : α → β) (k : ℕ)
    (h : k < l.length) (d : β) (d' : α) :
    (l.map f).getD k d = f (l.getD k d') := by
  rw [List.getD_eq_getElem?_getD, List.getElem?_map,
    List.getElem?_eq_getElem h, List.getD_eq_getElem l d' h]
  rfl

/-- Claim C7: for non-empty contours of equal length the Sequence Aligner
returns both inputs unchanged (the near-equal-length fast path applies with
ratio exactly 1, and truncation to the common length is the identity). -/
theorem claim_C7 (dtw : List ℝ → List ℝ → Except String (ℝ × List (ℕ × ℕ)))
    (s1 s2 : List ℝ) (hlen : s1.length = s2.length) (h1 : s1 ≠ []) :
    align_and_warp dtw s1 s2 = Except.ok (s1, s2) := by
  have h0 : s1.length ≠ 0 := fun h => h1 (List.length_eq_zero.mp h)
  unfold align_and_warp
  rw [if_neg (by push_neg; exact ⟨h0, hlen ▸ h0⟩)]
  rw [if_pos]
  · have hmin : min s1.length s2.length = s1.length := by rw [← hlen, min_self]
    simp only [hmin]
    rw [List.take_length, hlen, List.take_length]
  · rw [← hlen, max_self, min_self, div_self (by exact_mod_cast h0)]
    norm_num

theorem claim_C7_witness :
    align_and_warp (fun _ _ => Except.error "x") [(440 : ℝ)] [(220 : ℝ)]
      = Except.ok ([(440 : ℝ)], [(220 : ℝ)]) :=
  claim_C7 (fun _ _ => Except.error "x") [(440 : ℝ)] [(220 : ℝ)] rfl (by simp)

/-- Claim C6: the Sequence Aligner fails exactly when one input is empty;
on non-empty inputs where the DTW oracle raises (and the call actually
reaches DTW, i.e. neither the fast path nor the length guard fires), it
returns both inputs truncated to their common minimum length. -/
theorem claim_C6 (dtw : List ℝ → List ℝ → Except String (ℝ × List (ℕ × ℕ)))
    (s1 s2 : List ℝ) :
    ((∃ e, align_and_warp dtw s1 s2 = Except.error e)
        ↔ s1.length = 0 ∨ s2.length = 0)
    ∧ (∀ e, dtw s1 s2 = Except.error e → s1.length ≠ 0 → s2.length ≠ 0 →
        ¬ (((max s1.length s2.length : ℕ) : ℚ)
            / ((min s1.length s2.length : ℕ) : ℚ) < 11 / 10) →
        s1.length ≤ MAX_DTW_LENGTH → s2.length ≤ MAX_DTW_LENGTH →
        align_and_warp dtw s1 s2
          = Except.ok (s1.take (min s1.length s2.length),
              s2.take (min s1.length s2.length))) := by
  constructor
  · constructor
    · intro ⟨e, he⟩
      by_contra hempty
      unfold align_and_warp at he
      rw [if_neg hempty] at he
      rcases hdtw : dtw s1 s2 with e' | p
      · rw [hdtw] at he
        split_ifs at he
      · rcases p with ⟨d, path⟩
        rw [hdtw] at he
        split_ifs at he
    · intro hempty
      refine ⟨"Cannot align empty sequences", ?_⟩
      unfold align_and_warp
      rw [if_pos hempty]
  · intro e hdtw h1 h2 hratio hm1 hm2
    unfold align_and_warp
    rw [if_neg (by push_neg; exact ⟨h1, h2⟩), if_neg hratio,
      if_neg (by push_neg; exact ⟨hm1, hm2⟩), hdtw]

theorem claim_C6_witness :
    (∃ e, align_and_warp (fun _ _ => Except.error "boom") ([] : List ℝ)
        [(440 : ℝ)] = Except.error e)
    ∧ align_and_warp (fun _ _ => Except.error "boom")
        [(440 : ℝ), (440 : ℝ)] [(220 : ℝ)]
      = Except.ok ([(440 : ℝ)], [(220 : ℝ)]) := by
  constructor
  · exact (claim_C6 (fun _ _ => Except.error "boom") ([] : List ℝ)
      [(440 : ℝ)]).1.mpr (Or.inl rfl)
  · have h := (claim_C6 (fun _ _ => Except.error "boom")
      [(440 : ℝ), (440 : ℝ)] [(220 : ℝ)]).2 "boom" rfl
      (by norm_num) (by norm_num) (by norm_num)
      (by norm_num [MAX_DTW_LENGTH]) (by norm_num [MAX_DTW_LENGTH])
    simpa using h

/-- Claim C10: constructing the Aligned Pair from a DTW path yields outputs
of exactly the path length, and each frame holds the input value when the
path entry's index is in range and the pre-initialized 0.0 otherwise —
no out-of-bounds read occurs for any path. -/
theorem claim_C10 (s1 s2 : List ℝ) (path : List (ℕ × ℕ)) :
    (alignedFromPath path s1 s2).1.length = path.length
    ∧ (alignedFromPath path s1 s2).2.length = path.length
    ∧ ∀ k, k < path.length →
      (alignedFromPath path s1 s2).1.getD k 0
          = (if (path.getD k (0, 0)).1 < s1.length
             then s1.getD (path.getD k (0, 0)).1 0 else 0)
      ∧ (alignedFromPath path s1 s2).2.getD k 0
          = (if (path.getD k (0, 0)).2 < s2.length
             then s2.getD (path.getD k (0, 0)).2 0 else 0) := by
  unfold alignedFromPath
  rw [fillAligned_eq_map, fillAligned_eq_map]
  refine ⟨by simp, by simp, ?_⟩
  intro k hk
  have hk1 : k < (path.map Prod.fst).length := by simpa using hk
  have hk2 : k < (path.map Prod.snd).length := by simpa using hk
  constructor
  · rw [getD_map_lt _ _ k hk1 0 0, getD_map_lt _ _ k hk 0 (0, 0)]
  · rw [getD_map_lt _ _ k hk2 0 0, getD_map_lt _ _ k hk 0 (0, 0)]

theorem claim_C10_witness :
    (alignedFromPath [(0, 5)] [(440 : ℝ)] [(220 : ℝ)]).1.getD 0 0 = 440
    ∧ (alignedFromPath [(0, 5)] [(440 : ℝ)] [(220 : ℝ)]).2.getD 0 0 = 0 := by
  have h := (claim_C10 [(440 : ℝ)] [(220 : ℝ)] [(0, 5)]).2.2 0 (by norm_num)
  constructor
  · rw [h.1]; norm_num
  · rw [h.2]; norm_num

theorem range_getD {i n : ℕ} (h : i < n) : (List.range n).getD i 0 = i := by
  rw [List.getD_eq_getElem?_getD, List.getElem?_range h]
  rfl

theorem getD_map_range {α : Type} {f : ℕ → α} {i n : ℕ} (h : i < n) (d : α) :
    ((List.range n).map f).getD i d = f i := by
  rw [getD_map_lt _ f i (by simpa using h) d 0, range_getD h]

theorem noteFreq_69 : noteFreq 69 = 440 := by
  unfold noteFreq
  have h : (((69 : ℤ) : ℝ) - 69) / 12 = 0 := by norm_num
  rw [h, Real.rpow_zero]
  norm_num

theorem noteFreq_57 : noteFreq 57 = 220 := by
  unfold noteFreq
  have h : (((57 : ℤ) : ℝ) - 69) / 12 = ((-1 : ℤ) : ℝ) := by norm_num
  rw [h, Real.rpow_intCast]
  norm_num

/-- Claim C9: the single note (pitch 69, start 0.0, end 1.0) at frame rate
100 yields a contour of length 101, with frames 0..99 equal to 440.0 and
the end-boundary frame 100 equal to 0.0. -/
theorem claim_C9 :
    (parse_midi [[⟨69, 0, 1⟩]] 1 100 0 false).length = 101
    ∧ (∀ i, i < 100 → (parse_midi [[⟨69, 0, 1⟩]] 1 100 0 false).getD i 0 = 440)
    ∧ (parse_midi [[⟨69, 0, 1⟩]] 1 100 0 false).getD 100 0 = 0 := by
  have heq : parse_midi [[⟨69, 0, 1⟩]] 1 100 0 false
      = (List.range 101).map (frameValue false 100 101 [⟨69, 0, 1⟩]) := by
    unfold parse_midi numFrames selectInstruments pyGetTrack
    norm_num [pyInt]
    rw [show Int.toNat 100 + 1 = 101 by decide]
  refine ⟨by rw [heq]; simp, ?_, ?_⟩
  · intro i hi
    rw [heq, getD_map_range (by omega) 0]
    unfold frameValue
    simp only [List.foldl_cons, List.foldl_nil]
    unfold applyNote
    rw [if_pos, if_neg (by simp)]
    · exact noteFreq_69
    · refine ⟨by norm_num [pyInt], by norm_num [pyInt], ?_⟩
      have : pyInt ((1 : ℚ) * 100) = 100 := by norm_num [pyInt]
      rw [this]
      norm_num
      exact_mod_cast hi
  · rw [heq, getD_map_range (by norm_num) 0]
    unfold frameValue
    simp only [List.foldl_cons, List.foldl_nil]
    unfold applyNote
    rw [if_neg]
    intro hcond
    unfold coversFrame at hcond
    have : pyInt ((1 : ℚ) * 100) = 100 := by norm_num [pyInt]
    rw [this] at hcond
    have h2 := hcond.2.2
    norm_num at h2

theorem claim_C9_witness :
    (parse_midi [[⟨69, 0, 1⟩]] 1 100 0 false).getD 42 0 = 440 :=
  claim_C9.2.1 42 (by norm_num)

theorem foldl_applyNote_overwrite (sr : ℚ) (nf f : ℕ) (notes : List Note) :
    ∀ v : ℝ, notes.foldl (applyNote false sr nf f) v
      = (notes.filter (fun nt => decide (coversFrame sr nf f nt))).foldl
          (fun _ nt => noteFreq nt.pitch) v := by
  induction notes with
  | nil => intro v; rfl
  | cons nt rest ih =>
    intro v
    by_cases hc : coversFrame sr nf f nt
    · simp only [List.foldl_cons, List.filter_cons, hc, decide_True, if_true]
      rw [show applyNote false sr nf f v nt = noteFreq nt.pitch by
        unfold applyNote; rw [if_pos hc]; rfl]
      exact ih (noteFreq nt.pitch)
    · simp only [List.foldl_cons, List.filter_cons, hc, decide_False,
        Bool.false_eq_true, if_false]
      rw [show applyNote false sr nf f v nt = v by
        unfold applyNote; rw [if_neg hc]]
      exact ih v

theorem foldl_applyNote_merge (sr : ℚ) (nf f : ℕ) (notes : List Note) :
    ∀ v : ℝ, notes.foldl (applyNote true sr nf f) v
      = (notes.filter (fun nt => decide (coversFrame sr nf f nt))).foldl
          (fun v nt => max v (noteFreq nt.pitch)) v := by
  induction notes with
  | nil => intro v; rfl
  | cons nt rest ih =>
    intro v
    by_cases hc : coversFrame sr nf f nt
    · simp only [List.foldl_cons, List.filter_cons, hc, decide_True, if_true]
      rw [show applyNote true sr nf f v nt = max v (noteFreq nt.pitch) by
        unfold applyNote; rw [if_pos hc]; rfl]
      exact ih (max v (noteFreq nt.pitch))
    · simp only [List.foldl_cons, List.filter_cons, hc, decide_False,
        Bool.false_eq_true, if_false]
      rw [show applyNote true sr nf f v nt = v by
        unfold applyNote; rw [if_neg hc]]
      exact ih v

theorem foldl_const_getLast (l : List Note) :
    ∀ v : ℝ, l.foldl (fun _ nt => noteFreq nt.pitch) v
      = match l.getLast? with
        | some nt => noteFreq nt.pitch
        | none => v := by
  induction l with
  | nil => intro v; rfl
  | cons a t ih =>
    intro v
    rw [List.foldl_cons, ih (noteFreq a.pitch)]
    cases t with
    | nil => rfl
    | cons b t' =>
      rw [List.getLast?_cons_cons]
      cases hl : (b :: t').getLast? with
      | none => simp [List.getLast?_eq_none_iff] at hl
      | some c => rfl

theorem frameValue_false_eq_lastWrite (sr : ℚ) (nf f : ℕ) (notes : List Note) :
    frameValue false sr nf notes f = lastWriteAt sr nf notes f := by
  unfold frameValue lastWriteAt
  rw [foldl_applyNote_overwrite, foldl_const_getLast]

theorem frameValue_true_eq_maxFreq (sr : ℚ) (nf f : ℕ) (notes : List Note) :
    frameValue true sr nf notes f = maxFreqAt sr nf notes f := by
  unfold frameValue maxFreqAt
  rw [foldl_applyNote_merge]

/-- Claim C4 counterexample: requesting all tracks without merging
(instrument_index = -1, merge_instruments = False) is not rejected: with
two one-note tracks (440 Hz and 220 Hz over the same time span) the
Reference Timeline Builder returns a full 101-frame timeline whose frame 0
holds the later track's 220 Hz (last write wins), which moreover differs
from the 440 Hz maximum that the merge rule would give. -/
theorem claim_C4_cex :
    (parse_midi [[⟨69, 0, 1⟩], [⟨57, 0, 1⟩]] 1 100 (-1) false).length = 101
    ∧ (parse_midi [[⟨69, 0, 1⟩], [⟨57, 0, 1⟩]] 1 100 (-1) false).getD 0 0 = 220
    ∧ maxFreqAt 100 (numFrames 1 100)
        ([[⟨69, 0, 1⟩], [⟨57, 0, 1⟩]] : List (List Note)).flatten 0 = 440 := by
  have hnf : numFrames (1 : ℚ) 100 = 101 := by
    unfold numFrames
    norm_num [pyInt]
    rfl
  have hcov69 : coversFrame 100 101 0 ⟨69, 0, 1⟩ := by
    unfold coversFrame
    refine ⟨by norm_num [pyInt], by norm_num [pyInt], ?_⟩
    have h1 : pyInt ((1 : ℚ) * 100) = 100 := by norm_num [pyInt]
    rw [h1]; norm_num
  have hcov57 : coversFrame 100 101 0 ⟨57, 0, 1⟩ := by
    unfold coversFrame
    refine ⟨by norm_num [pyInt], by norm_num [pyInt], ?_⟩
    have h1 : pyInt ((1 : ℚ) * 100) = 100 := by norm_num [pyInt]
    rw [h1]; norm_num
  have heq : parse_midi [[⟨69, 0, 1⟩], [⟨57, 0, 1⟩]] 1 100 (-1) false
      = (List.range 101).map
          (frameValue false 100 101 [⟨69, 0, 1⟩, ⟨57, 0, 1⟩]) := by
    unfold parse_midi selectInstruments
    rw [if_neg (by norm_num), if_pos (Or.inl rfl), hnf]
    rfl
  refine ⟨by rw [heq]; simp, ?_, ?_⟩
  · rw [heq, getD_map_range (by norm_num) 0]
    unfold frameValue
    simp only [List.foldl_cons, List.foldl_nil]
    rw [show applyNote false 100 101 0 (0 : ℝ) ⟨69, 0, 1⟩ = noteFreq 69 by
      unfold applyNote; rw [if_pos hcov69]; rfl]
    rw [show applyNote false 100 101 0 (noteFreq 69) ⟨57, 0, 1⟩ = noteFreq 57 by
      unfold applyNote; rw [if_pos hcov57]; rfl]
    exact noteFreq_57
  · rw [hnf]
    unfold maxFreqAt
    rw [show ([[(⟨69, 0, 1⟩ : Note)], [⟨57, 0, 1⟩]] : List (List Note)).flatten
      = [⟨69, 0, 1⟩, ⟨57, 0, 1⟩] from rfl]
    simp only [List.filter_cons, hcov69, hcov57, decide_True, if_true,
      List.filter_nil, List.foldl_cons, List.foldl_nil]
    rw [noteFreq_69, noteFreq_57]
    rw [sup_eq_right.mpr (by norm_num : (0 : ℝ) ≤ 440),
      sup_eq_left.mpr (by norm_num : (220 : ℝ) ≤ 440)]

/-- Claim C4 (amended): the combination instrument_index = -1 with
merge_instruments = False is accepted, not rejected: all tracks are
processed and each frame holds the frequency of the last note in iteration
order sounding there (last write wins across tracks).  In merge mode with
more than one instrument, each frame holds the maximum frequency among all
notes sounding at that frame. -/
theorem claim_C4_amended (instruments : List (List Note)) (d sr : ℚ) (f : ℕ)
    (hne : instruments.length ≠ 0) (hf : f < numFrames d sr) :
    ((parse_midi instruments d sr (-1) false).getD f 0
        = lastWriteAt sr (numFrames d sr) instruments.flatten f)
    ∧ (∀ idx : ℤ, 1 < instruments.length →
        (parse_midi instruments d sr idx true).getD f 0
          = maxFreqAt sr (numFrames d sr) instruments.flatten f) := by
  constructor
  · unfold parse_midi selectInstruments
    rw [if_neg hne, if_pos (Or.inl rfl)]
    simp only [Bool.false_and]
    rw [getD_map_range hf 0]
    exact frameValue_false_eq_lastWrite sr (numFrames d sr) f instruments.flatten
  · intro idx hlen
    unfold parse_midi selectInstruments
    rw [if_neg hne, if_pos (Or.inr rfl)]
    simp only [Bool.true_and, hlen, decide_True]
    rw [getD_map_range hf 0]
    exact frameValue_true_eq_maxFreq sr (numFrames d sr) f instruments.flatten

theorem claim_C4_witness :
    (parse_midi [[⟨69, 0, 1⟩], [⟨57, 0, 1⟩]] 1 100 (-1) false).getD 0 0
        = lastWriteAt 100 (numFrames 1 100)
            ([[⟨69, 0, 1⟩], [⟨57, 0, 1⟩]] : List (List Note)).flatten 0
    ∧ (parse_midi [[⟨69, 0, 1⟩], [⟨57, 0, 1⟩]] 1 100 0 true).getD 0 0
        = maxFreqAt 100 (numFrames 1 100)
            ([[⟨69, 0, 1⟩], [⟨57, 0, 1⟩]] : List (List Note)).flatten 0 := by
  have h := claim_C4_amended [[⟨69, 0, 1⟩], [⟨57, 0, 1⟩]] 1 100 0
    (by norm_num) (by norm_num [numFrames, pyInt])
  exact ⟨h.1, h.2 0 (by norm_num)⟩

/-- Claim C5 counterexample: an input with one instrument and zero note
events yields a contour of length 1 (an all-silent frame), not length 0,
and the caller's empty-contour check passes, so the request proceeds. -/
theorem claim_C5_cex :
    ([([] : List Note)].flatten).length = 0
    ∧ (parse_midi [[]] 0 100 0 false).length = 1
    ∧ contourCheck (parse_midi [[]] 0 100 0 false) = Except.ok () := by
  have heq : parse_midi [[]] 0 100 0 false
      = (List.range 1).map (frameValue false 100 1 []) := by
    unfold parse_midi numFrames selectInstruments pyGetTrack
    norm_num [pyInt]
  refine ⟨rfl, by rw [heq]; simp, ?_⟩
  unfold contourCheck
  rw [heq, if_neg (by simp)]

/-- Claim C5 (amended): an input with zero instruments yields the empty
contour of length 0, and the caller then rejects the empty contour with a
user-facing error rather than proceeding. -/
theorem claim_C5_amended (total_duration target_sr : ℚ) (instrument_index : ℤ)
    (merge_instruments : Bool) :
    parse_midi [] total_duration target_sr instrument_index merge_instruments
        = []
    ∧ ∃ e, contourCheck (parse_midi [] total_duration target_sr
        instrument_index merge_instruments) = Except.error e := by
  have h : parse_midi [] total_duration target_sr instrument_index
      merge_instruments = [] := by
    unfold parse_midi
    simp
  exact ⟨h, _, by rw [h]; rfl⟩

theorem runLengthFilter_le_one (raw : List ℕ) {mef : ℕ} (h : mef ≤ 1) :
    runLengthFilter raw mef = raw := by
  unfold runLengthFilter
  by_cases hr : raw.length = 0
  · rw [if_pos hr]
    exact (List.length_eq_zero.mp hr).symm
  · rw [if_neg hr, if_pos h]

theorem smoothed_ok (fa fr : List ℝ) (sw : ℕ)
    (h : sw % 2 = 1 ∨ fa.length ≤ sw) :
    ∃ c1, smoothed fa fr sw = Except.ok c1 := by
  unfold smoothed
  by_cases hg : 1 < sw ∧ sw < fa.length
  · have hodd : sw % 2 = 1 := h.resolve_right (fun hle => absurd hg.2 (not_lt.mpr hle))
    rw [if_pos hg]
    unfold medfilt
    rw [if_neg (by omega : ¬ sw % 2 ≠ 1)]
    exact ⟨_, rfl⟩
  · rw [if_neg hg]
    exact ⟨_, rfl⟩

/-- Claim C3 counterexample: the configuration contract admits
smooth_window = 2, but on the well-formed pair ([440,440,440], [440,440,440])
the Deviation Detector then reaches the median filter with an even kernel
size and raises its ValueError instead of returning. -/
theorem claim_C3_cex :
    detect_errors [(440 : ℝ), 440, 440] [(440 : ℝ), 440, 440] 40 true 2 1
      = Except.error "Each element of kernel_size should be odd." := by
  have hsm : smoothed [(440 : ℝ), 440, 440] [(440 : ℝ), 440, 440] 2
      = Except.error "Each element of kernel_size should be odd." := by
    unfold smoothed
    rw [if_pos (by norm_num)]
    unfold medfilt
    rw [if_pos (by norm_num)]
  unfold detect_errors
  rw [if_neg, hsm]
  push_neg
  exact ⟨0, by norm_num, by simp [voiced]⟩

/-- Claim C3 (amended): the Deviation Detector returns normally for every
well-formed Aligned Pair provided the smoothing window is odd or at least
as large as the contour (an even window strictly between 1 and the contour
length raises the median filter's ValueError); an all-silent or
fully-invalid input yields an empty Error Index Set for every parameter
combination. -/
theorem claim_C3_amended (fa fr : List ℝ) (t : ℝ) (ig : Bool) (sw mef : ℕ)
    (hlen : fa.length = fr.length)
    (hpos : ∀ i, i < fa.length → 0 ≤ fa.getD i 0 ∧ 0 ≤ fr.getD i 0) :
    (sw % 2 = 1 ∨ fa.length ≤ sw →
      ∃ out, detect_errors fa fr t ig sw mef = Except.ok out)
    ∧ ((∀ i, i < fa.length → ¬ voiced fa fr i) →
      detect_errors fa fr t ig sw mef = Except.ok []) := by
  constructor
  · intro hcond
    by_cases hmask : ∀ i, i < fa.length → ¬ voiced fa fr i
    · exact ⟨[], by unfold detect_errors; rw [if_pos hmask]⟩
    · obtain ⟨c1, hc1⟩ := smoothed_ok fa fr sw hcond
      refine ⟨runLengthFilter
        (rawErrors fa fr ig (dynThreshold fa fr t c1) c1) mef, ?_⟩
      unfold detect_errors
      rw [if_neg hmask, hc1]
  · intro hmask
    unfold detect_errors
    rw [if_pos hmask]

theorem claim_C3_witness :
    (∃ out, detect_errors [(440 : ℝ)] [(440 : ℝ)] 40 true 3 1 = Except.ok out)
    ∧ detect_errors [(0 : ℝ)] [(0 : ℝ)] 40 true 3 1 = Except.ok [] := by
  constructor
  · exact (claim_C3_amended [(440 : ℝ)] [(440 : ℝ)] 40 true 3 1 rfl
      (by intro i hi
          simp only [List.length_cons, List.length_nil] at hi
          obtain rfl : i = 0 := by omega
          constructor <;> norm_num)).1 (Or.inl rfl)
  · exact (claim_C3_amended [(0 : ℝ)] [(0 : ℝ)] 40 true 3 1 rfl
      (by intro i hi
          simp only [List.length_cons, List.length_nil] at hi
          obtain rfl : i = 0 := by omega
          constructor <;> norm_num)).2
      (by intro i hi
          simp only [List.length_cons, List.length_nil] at hi
          obtain rfl : i = 0 := by omega
          simp [voiced])

/-- Claim C2 counterexample: with ignore_silence = False and
min_error_frames = 1, the pair ([440], [0]) has a voiced/unvoiced mismatch
at frame 0, yet the Deviation Detector returns the empty Error Index Set
because no frame has both sides voiced (the early return fires before
mismatch flagging). -/
theorem claim_C2_cex :
    Xor' (([(440 : ℝ)].getD 0 0) = 0) (([(0 : ℝ)].getD 0 0) = 0)
    ∧ detect_errors [(440 : ℝ)] [(0 : ℝ)] 40 false 1 1 = Except.ok [] := by
  constructor
  · refine Or.inr ⟨by simp, by simp⟩
  · unfold detect_errors
    rw [if_pos]
    intro i hi
    simp only [List.length_cons, List.length_nil] at hi
    obtain rfl : i = 0 := by omega
    simp [voiced]

/-- Claim C2 (amended): with ignore_silence = False and run-length
filtering disabled, every voiced/unvoiced mismatch frame is in the
returned Error Index Set, provided at least one frame of the pair has
both sides voiced (otherwise the detector's early return yields the
empty set regardless of mismatches). -/
theorem claim_C2_amended (fa fr : List ℝ) (t : ℝ) (sw mef : ℕ) (i : ℕ)
    (out : List ℕ) (hlen : fa.length = fr.length) (hmef : mef ≤ 1)
    (hvoiced : ∃ j, j < fa.length ∧ voiced fa fr j)
    (hok : detect_errors fa fr t false sw mef = Except.ok out)
    (hi : i < fa.length)
    (hx : Xor' (fa.getD i 0 = 0) (fr.getD i 0 = 0)) :
    i ∈ out := by
  have hnall : ¬ ∀ j, j < fa.length → ¬ voiced fa fr j := by
    obtain ⟨j, hj, hv⟩ := hvoiced
    exact fun hall => hall j hj hv
  unfold detect_errors at hok
  rw [if_neg hnall] at hok
  rcases hsm : smoothed fa fr sw with e | c1
  · rw [hsm] at hok
    have hcontra : (Except.error e : Except String (List ℕ)) = Except.ok out := hok
    exact absurd hcontra (by simp)
  · rw [hsm] at hok
    have hout : (Except.ok (runLengthFilter
        (rawErrors fa fr false (dynThreshold fa fr t c1) c1) mef)
          : Except String (List ℕ)) = Except.ok out := hok
    have heq : runLengthFilter
        (rawErrors fa fr false (dynThreshold fa fr t c1) c1) mef = out :=
      Except.ok.inj hout
    rw [← heq, runLengthFilter_le_one _ hmef]
    unfold rawErrors
    rw [List.mem_filter]
    refine ⟨List.mem_range.mpr hi, ?_⟩
    rw [decide_eq_true_eq]
    unfold rawErrorAt
    rw [if_neg (by simp)]
    exact Or.inr hx

/-- Claim C8: with run-length filtering disabled, for two positive
thresholds t1 < t2 on the same Aligned Pair and remaining parameters, the
Error Index Set at t2 is a subset of the Error Index Set at t1. -/
theorem claim_C8 (fa fr : List ℝ) (t1 t2 : ℝ) (ig : Bool) (sw mef : ℕ)
    (out1 out2 : List ℕ) (hlen : fa.length = fr.length) (hmef : mef ≤ 1)
    (ht1 : 0 < t1) (ht12 : t1 < t2)
    (h1 : detect_errors fa fr t1 ig sw mef = Except.ok out1)
    (h2 : detect_errors fa fr t2 ig sw mef = Except.ok out2) :
    out2 ⊆ out1 := by
  unfold detect_errors at h1 h2
  by_cases hmask : ∀ i, i < fa.length → ¬ voiced fa fr i
  · rw [if_pos hmask] at h2
    have e2 : (Except.ok [] : Except String (List ℕ)) = Except.ok out2 := h2
    rw [← Except.ok.inj e2]
    exact fun x hx => absurd hx (List.not_mem_nil x)
  · rw [if_neg hmask] at h1 h2
    rcases hsm : smoothed fa fr sw with e | c1
    · rw [hsm] at h1
      have hcontra : (Except.error e : Except String (List ℕ))
          = Except.ok out1 := h1
      exact absurd hcontra (by simp)
    · rw [hsm] at h1 h2
      have ho1 : runLengthFilter
          (rawErrors fa fr ig (dynThreshold fa fr t1 c1) c1) mef = out1 :=
        Except.ok.inj h1
      have ho2 : runLengthFilter
          (rawErrors fa fr ig (dynThreshold fa fr t2 c1) c1) mef = out2 :=
        Except.ok.inj h2
      rw [← ho1, ← ho2, runLengthFilter_le_one _ hmef,
        runLengthFilter_le_one _ hmef]
      have hd1 : dynThreshold fa fr t1 c1 = t1 := by
        unfold dynThreshold
        rw [if_neg (not_le.mpr ht1)]
      have hd2 : dynThreshold fa fr t2 c1 = t2 := by
        unfold dynThreshold
        rw [if_neg (not_le.mpr (ht1.trans ht12))]
      rw [hd1, hd2]
      intro x hx
      unfold rawErrors at hx ⊢
      rw [List.mem_filter] at hx ⊢
      obtain ⟨hxr, hxp⟩ := hx
      rw [decide_eq_true_eq] at hxp
      refine ⟨hxr, ?_⟩
      rw [decide_eq_true_eq]
      unfold rawErrorAt at hxp ⊢
      cases ig
      · rw [if_neg (by simp)] at hxp ⊢
        rcases hxp with ⟨hv, hgt⟩ | hmis
        · exact Or.inl ⟨hv, ht12.trans hgt⟩
        · exact Or.inr hmis
      · rw [if_pos rfl] at hxp ⊢
        exact ⟨hxp.1, ht12.trans hxp.2⟩

theorem int_toNat_two : Int.toNat 2 = 2 := rfl

theorem int_toNat_three : Int.toNat 3 = 3 := rfl

theorem int_toNat_four : Int.toNat 4 = 4 := rfl

theorem int_toNat_five : Int.toNat 5 = 5 := rfl

theorem cents_440_440 : cents 440 440 = 0 := by
  unfold cents
  rw [show (440 : ℝ) / 440 = 1 by norm_num, Real.logb_one, mul_zero]

theorem cents_880_440 : cents 880 440 = 1200 := by
  unfold cents
  rw [show (880 : ℝ) / 440 = 2 by norm_num,
    Real.logb_self_eq_one (by norm_num), mul_one]

theorem abs_1200 : |(1200 : ℝ)| = 1200 := abs_of_pos (by norm_num)

theorem max_0_1200 : max (0 : ℝ) 1200 = 1200 := max_eq_right (by norm_num)

theorem max_1200_1200 : max (1200 : ℝ) 1200 = 1200 := max_self 1200

theorem detect_errors_ok (fa fr : List ℝ) (t : ℝ) (ig : Bool) (sw mef : ℕ)
    (c1 : List ℝ) (hmask : ¬ ∀ i, i < fa.length → ¬ voiced fa fr i)
    (hsm : smoothed fa fr sw = Except.ok c1) :
    detect_errors fa fr t ig sw mef
      = Except.ok (runLengthFilter
          (rawErrors fa fr ig (dynThreshold fa fr t c1) c1) mef) := by
  unfold detect_errors
  rw [if_neg hmask, hsm]

theorem smoothed_sw1 (fa fr : List ℝ) :
    smoothed fa fr 1 = Except.ok (centsList fa fr) := by
  unfold smoothed
  rw [if_neg (by simp)]

theorem centsList_C1 :
    centsList [(440 : ℝ), 440, 440, 880, 880] [(440 : ℝ), 440, 440, 440, 440]
      = [0, 0, 0, 1200, 1200] := by
  norm_num [centsList, voiced, List.range_succ, List.range_zero,
    cents_440_440, cents_880_440]

theorem medfilt_C1 :
    medfilt [(0 : ℝ), 0, 0, 1200, 1200] 3
      = Except.ok [0, 0, 0, 1200, 1200] := by
  norm_num [medfilt, npMedian, sortReal, insertR, padGet,
    List.range_succ, List.range_zero, Int.toNat_one, Int.toNat_zero,
    int_toNat_two, int_toNat_three, int_toNat_four, int_toNat_five,
    List.getElem?_cons_zero, List.getElem?_cons_succ, Option.getD_some]

theorem smoothed_C1 :
    smoothed [(440 : ℝ), 440, 440, 880, 880] [(440 : ℝ), 440, 440, 440, 440] 3
      = Except.ok [0, 0, 0, 1200, 1200] := by
  unfold smoothed
  simp only [centsList_C1]
  rw [if_pos (by constructor <;> norm_num), medfilt_C1]
  norm_num [voiced, List.range_succ, List.range_zero]

theorem mask_C1 :
    ¬ ∀ i, i < ([(440 : ℝ), 440, 440, 880, 880] : List ℝ).length →
      ¬ voiced [(440 : ℝ), 440, 440, 880, 880] [(440 : ℝ), 440, 440, 440, 440] i := by
  intro hall
  exact hall 0 (by norm_num) ⟨by norm_num, by norm_num⟩

/-- Claim C1: on the pair ([440,440,440,880,880], [440,440,440,440,440])
with threshold 40 cents, min_error_frames 1 and ignore_silence True, the
Deviation Detector returns exactly the indices [3, 4]; the Scorer reports
3 correct frames and a mean absolute deviation of 480 cents over the 5
valid frames, the route's max metric is 1200 cents and the accuracy is
60 percent. -/
theorem claim_C1 :
    detect_errors [(440 : ℝ), 440, 440, 880, 880]
        [(440 : ℝ), 440, 440, 440, 440] 40 true 3 1 = Except.ok [3, 4]
    ∧ compute_score [(440 : ℝ), 440, 440, 880, 880]
        [(440 : ℝ), 440, 440, 440, 440] [3, 4] 5 = (3, 480)
    ∧ max_cents_metric [(440 : ℝ), 440, 440, 880, 880]
        [(440 : ℝ), 440, 440, 440, 440] = 1200
    ∧ accuracyPercent 3 5 = 60 := by
  refine ⟨?_, ?_, ?_, ?_⟩
  · rw [detect_errors_ok _ _ 40 true 3 1 [0, 0, 0, 1200, 1200] mask_C1
      smoothed_C1]
    rw [runLengthFilter_le_one _ (le_refl 1)]
    rw [show dynThreshold [(440 : ℝ), 440, 440, 880, 880]
        [(440 : ℝ), 440, 440, 440, 440] 40 [0, 0, 0, 1200, 1200] = 40 by
      unfold dynThreshold; rw [if_neg (by norm_num)]]
    norm_num [rawErrors, rawErrorAt, voiced, List.range_succ,
      List.range_zero, List.filter_append, List.filter_cons, List.filter_nil,
      abs_1200]
  · norm_num [compute_score, validIndices, voiced, List.range_succ,
      List.range_zero, List.filter_append, List.filter_cons, List.filter_nil,
      cents_440_440, cents_880_440, abs_1200]
  · unfold max_cents_metric
    norm_num [validIndices, voiced, List.range_succ, List.range_zero,
      List.filter_append, List.filter_cons, List.filter_nil,
      cents_440_440, cents_880_440, abs_1200, max_0_1200, max_1200_1200,
      max_self]
  · unfold accuracyPercent
    rw [if_pos (by norm_num)]
    norm_num

theorem centsList_C2w :
    centsList [(440 : ℝ), 440] [(440 : ℝ), 0] = [0, 0] := by
  norm_num [centsList, voiced, List.range_succ, List.range_zero,
    cents_440_440]

theorem claim_C2_witness :
    detect_errors [(440 : ℝ), 440] [(440 : ℝ), 0] 40 false 1 1
      = Except.ok [1] ∧ (1 : ℕ) ∈ [1] := by
  have hmask : ∃ j, j < ([(440 : ℝ), 440] : List ℝ).length
      ∧ voiced [(440 : ℝ), 440] [(440 : ℝ), 0] j :=
    ⟨0, by norm_num, by norm_num, by norm_num⟩
  have hok : detect_errors [(440 : ℝ), 440] [(440 : ℝ), 0] 40 false 1 1
      = Except.ok [1] := by
    rw [detect_errors_ok _ _ 40 false 1 1 (centsList [(440 : ℝ), 440]
      [(440 : ℝ), 0]) (fun hall => absurd (hall 0 (by norm_num))
        (by simp [voiced])) (smoothed_sw1 _ _)]
    rw [centsList_C2w, runLengthFilter_le_one _ (le_refl 1)]
    rw [show dynThreshold [(440 : ℝ), 440] [(440 : ℝ), 0] 40 [0, 0] = 40 by
      unfold dynThreshold; rw [if_neg (by norm_num)]]
    norm_num [rawErrors, rawErrorAt, voiced, Xor', List.range_succ,
      List.range_zero, List.filter_append, List.filter_cons, List.filter_nil]
  exact ⟨hok, claim_C2_amended [(440 : ℝ), 440] [(440 : ℝ), 0] 40 1 1 1 [1]
    rfl (le_refl 1) hmask hok (by norm_num)
    (Or.inr ⟨by norm_num, by norm_num⟩)⟩

theorem centsList_C8w :
    centsList [(440 : ℝ), 880] [(440 : ℝ), 440] = [0, 1200] := by
  norm_num [centsList, voiced, List.range_succ, List.range_zero,
    cents_440_440, cents_880_440]

theorem claim_C8_witness :
    detect_errors [(440 : ℝ), 880] [(440 : ℝ), 440] 100 true 1 1
        = Except.ok [1]
    ∧ detect_errors [(440 : ℝ), 880] [(440 : ℝ), 440] 2000 true 1 1
        = Except.ok []
    ∧ ([] : List ℕ) ⊆ [1] := by
  have hmask : ¬ ∀ i, i < ([(440 : ℝ), 880] : List ℝ).length →
      ¬ voiced [(440 : ℝ), 880] [(440 : ℝ), 440] i :=
    fun hall => absurd (hall 0 (by norm_num)) (by simp [voiced])
  have h1 : detect_errors [(440 : ℝ), 880] [(440 : ℝ), 440] 100 true 1 1
      = Except.ok [1] := by
    rw [detect_errors_ok _ _ 100 true 1 1 _ hmask (smoothed_sw1 _ _)]
    rw [centsList_C8w, runLengthFilter_le_one _ (le_refl 1)]
    rw [show dynThreshold [(440 : ℝ), 880] [(440 : ℝ), 440] 100 [0, 1200]
        = 100 by unfold dynThreshold; rw [if_neg (by norm_num)]]
    norm_num [rawErrors, rawErrorAt, voiced, List.range_succ,
      List.range_zero, List.filter_append, List.filter_cons, List.filter_nil,
      abs_1200]
  have h2 : detect_errors [(440 : ℝ), 880] [(440 : ℝ), 440] 2000 true 1 1
      = Except.ok [] := by
    rw [detect_errors_ok _ _ 2000 true 1 1 _ hmask (smoothed_sw1 _ _)]
    rw [centsList_C8w, runLengthFilter_le_one _ (le_refl 1)]
    rw [show dynThreshold [(440 : ℝ), 880] [(440 : ℝ), 440] 2000 [0, 1200]
        = 2000 by unfold dynThreshold; rw [if_neg (by norm_num)]]
    norm_num [rawErrors, rawErrorAt, voiced, List.range_succ,
      List.range_zero, List.filter_append, List.filter_cons, List.filter_nil,
      abs_1200]
  exact ⟨h1, h2, claim_C8 [(440 : ℝ), 880] [(440 : ℝ), 440] 100 2000 true 1 1
    [1] [] rfl (le_refl 1) (by norm_num) (by norm_num) h1 h2⟩

end FalseNote
